import Mathlib

set_option maxHeartbeats 1000000
set_option maxRecDepth 4000
set_option linter.unusedVariables false

/-- Investment glide-path strategy selector. The source compares the string
parameter against "Aggressive", "Balanced" and "Conservative"; any other
value (the app passes "Custom") keeps the caller-supplied percentages. -/
inductive Strategy where
  | Aggressive
  | Balanced
  | Conservative
  | Custom
deriving DecidableEq

/-- Resolution of the glide start/end equity fractions from the strategy
(retirement_app.py lines 8-13): the first three strategies overwrite the
caller-supplied pair, Custom keeps it. -/
def strategyPcts (strategy : Strategy) (start_pct end_pct : ℚ) : ℚ × ℚ :=
  match strategy with
  | .Aggressive => (0.9, 0.3)
  | .Balanced => (0.85, 0.2)
  | .Conservative => (0.7, 0.2)
  | .Custom => (start_pct, end_pct)

/-- Embedding of get_equity_allocation (retirement_app.py lines 7-20):
clamped linear glide from start_pct at start_age to end_pct at end_age. -/
def get_equity_allocation (age : ℤ) (strategy : Strategy) (start_age end_age : ℤ)
    (start_pct end_pct : ℚ) : ℚ :=
  let p := strategyPcts strategy start_pct end_pct
  if age ≤ start_age then p.1
  else if end_age ≤ age then p.2
  else p.1 - (((age : ℚ) - (start_age : ℚ)) / ((end_age : ℚ) - (start_age : ℚ))) * (p.1 - p.2)

/-- Embedding of calculate_annual_emi (retirement_app.py lines 22-26).
The Python code computes principal * r * (1+r)^n / ((1+r)^n - 1) with
r = annual_rate / 12 and n = years * 12 and raises ZeroDivisionError when
the denominator is zero (in particular for annual_rate = 0); the raised
exception is modelled as none. -/
def calculate_annual_emi (principal annual_rate : ℚ) (years : ℕ) : Option ℚ :=
  let monthly_rate := annual_rate / 12
  let months := years * 12
  if (1 + monthly_rate) ^ months - 1 = 0 then none
  else
    some ((principal * monthly_rate * (1 + monthly_rate) ^ months /
      ((1 + monthly_rate) ^ months - 1)) * 12)

/-- The parameters of retirement_calculator (retirement_app.py lines 28-34),
collected into one immutable record. home_loan is the optional tuple
(start age, principal, term years, annual rate). -/
structure SimInput where
  current_age : ℤ
  retirement_age : ℤ
  life_expectancy : ℤ
  current_savings : ℚ
  monthly_contribution : ℚ
  equity_return : ℚ
  fixed_income_return : ℚ
  annual_ret_expenses : ℚ
  exp_inflation_rate : ℚ
  annual_contrib_increase : ℚ
  one_time_expenses : List (ℤ × ℚ)
  home_loan : Option (ℤ × ℚ × ℕ × ℚ)
  strategy : Strategy
  custom_start : ℚ
  custom_end : ℚ
  custom_age : ℤ
deriving DecidableEq

/-- The mutable locals of the year loop (retirement_app.py lines 39-41):
balance, the running contribution amount contrib, and the emi_amount
sentinel (initialised to -1, meaning "not yet computed"). -/
structure LoopState where
  balance : ℚ
  contrib : ℚ
  emi_amount : ℚ
deriving DecidableEq

/-- One row appended to the output (retirement_app.py lines 82-89); the
monetary fields are emitted divided by 1e7 (crores) and the allocation
as a percentage. -/
structure YearRecord where
  age : ℤ
  netWorth : ℚ
  contribution : ℚ
  expense : ℚ
  investmentReturn : ℚ
  equityPct : ℚ
deriving DecidableEq

/-- The equity allocation the loop uses at a given age (retirement_app.py
line 44): glide start is the simulation's current_age, end and percentages
come from the custom parameters unless the strategy overrides them. -/
def allocOf (inp : SimInput) (age : ℤ) : ℚ :=
  get_equity_allocation age inp.strategy inp.current_age inp.custom_age
    inp.custom_start inp.custom_end

/-- Blended annual return at a given age (retirement_app.py lines 45-46). -/
def annualReturnOf (inp : SimInput) (age : ℤ) : ℚ :=
  allocOf inp age * inp.equity_return + (1 - allocOf inp age) * inp.fixed_income_return

/-- The one-time-expense loop (retirement_app.py lines 66-70): every entry
whose age matches the current age is inflated and applied to the running
(balance, expense) pair. -/
def applyOneTime (inp : SimInput) (age : ℤ) : ℚ × ℚ → List (ℤ × ℚ) → ℚ × ℚ
  | p, [] => p
  | p, q :: rest =>
      if age = q.1 then
        applyOneTime inp age
          (p.1 - q.2 * (1 + inp.exp_inflation_rate) ^ (age - inp.current_age).toNat,
           p.2 + q.2 * (1 + inp.exp_inflation_rate) ^ (age - inp.current_age).toNat) rest
      else applyOneTime inp age p rest

/-- Total inflated one-time expense charged at a given age over a given
entry list: the sum of all matching entries. -/
def oneTimeSum (inp : SimInput) (age : ℤ) (l : List (ℤ × ℚ)) : ℚ :=
  (l.map (fun q =>
    if age = q.1 then q.2 * (1 + inp.exp_inflation_rate) ^ (age - inp.current_age).toNat
    else 0)).sum

/-- Total inflated one-time expense charged at a given age. -/
def oneTimeTotal (inp : SimInput) (age : ℤ) : ℚ :=
  oneTimeSum inp age inp.one_time_expenses

/-- The loan deduction applied in a year given the resolved emi_amount m1
(retirement_app.py lines 78-80): the EMI is subtracted only inside the
window [start, start + term) and only when m1 is strictly positive. -/
def dedAmt (inp : SimInput) (age : ℤ) (m1 : ℚ) : ℚ :=
  match inp.home_loan with
  | none => 0
  | some (s, _, t, _) => if s ≤ age ∧ age < s + (t : ℤ) ∧ 0 < m1 then m1 else 0

/-- The emi_amount after the conditional computation at the loan's start
age (retirement_app.py lines 73-77): when the current age equals the
loan's start age and emi_amount is still the -1 sentinel, the EMI of the
inflation-adjusted principal is computed (none models the
ZeroDivisionError the source raises at a zero rate); otherwise the stored
value is kept. -/
def resolvedEmi (inp : SimInput) (st : LoopState) (age : ℤ) : Option ℚ :=
  match inp.home_loan with
  | none => some st.emi_amount
  | some (s, p0, t, r) =>
      if age = s ∧ st.emi_amount < 0 then
        calculate_annual_emi
          (p0 * (1 + inp.exp_inflation_rate) ^ (age - inp.current_age).toNat) r t
      else some st.emi_amount

/-- One iteration of the year loop (retirement_app.py lines 43-89) given
the resolved emi_amount m1: growth, contribution while working (with the
running amount compounding afterwards), ongoing retirement expense,
one-time expenses, loan deduction, then the emitted row (divided by 1e7). -/
def stepCore (inp : SimInput) (st : LoopState) (age : ℤ) (m1 : ℚ) :
    LoopState × YearRecord :=
  let equity_allocation := allocOf inp age
  let growth := st.balance * annualReturnOf inp age
  let balance1 := st.balance + growth
  let contribution := if age < inp.retirement_age then st.contrib else 0
  let balance2 := balance1 + contribution
  let contrib1 :=
    if age < inp.retirement_age then st.contrib * (1 + inp.annual_contrib_increase)
    else st.contrib
  let expense0 :=
    if inp.retirement_age ≤ age then
      inp.annual_ret_expenses * (1 + inp.exp_inflation_rate) ^ (age - inp.current_age).toNat
    else 0
  let balance3 := balance2 - expense0
  let p := applyOneTime inp age (balance3, expense0) inp.one_time_expenses
  let ded := dedAmt inp age m1
  let balance5 := p.1 - ded
  let expense2 := p.2 + ded
  (⟨balance5, contrib1, m1⟩,
   ⟨age, balance5 / 1e7, contribution / 1e7, expense2 / 1e7, growth / 1e7,
    equity_allocation * 100⟩)

/-- One iteration of the year loop including the possible EMI computation;
none models the uncaught ZeroDivisionError aborting the whole call. -/
def yearStep (inp : SimInput) (st : LoopState) (age : ℤ) :
    Option (LoopState × YearRecord) :=
  (resolvedEmi inp st age).map (stepCore inp st age)

/-- The year loop over a list of ages, collecting the emitted rows. -/
def runAges (inp : SimInput) : LoopState → List ℤ → Option (List YearRecord)
  | _, [] => some []
  | st, a :: rest =>
      match yearStep inp st a with
      | none => none
      | some (st', r) =>
          match runAges inp st' rest with
          | none => none
          | some rs => some (r :: rs)

/-- The year loop over a list of ages, keeping only the final loop state. -/
def iterStates (inp : SimInput) : LoopState → List ℤ → Option LoopState
  | st, [] => some st
  | st, a :: rest =>
      match yearStep inp st a with
      | none => none
      | some (st', _) => iterStates inp st' rest

/-- Number of simulated years (retirement_app.py line 35). -/
def simYears (inp : SimInput) : ℕ :=
  (inp.life_expectancy - inp.current_age + 1).toNat

/-- The ages the loop iterates over (retirement_app.py line 36):
np.arange(current_age, current_age + years). -/
def agesList (inp : SimInput) : List ℤ :=
  (List.range (simYears inp)).map (fun i : ℕ => inp.current_age + (i : ℤ))

/-- The initial loop state (retirement_app.py lines 39-41). -/
def initState (inp : SimInput) : LoopState :=
  ⟨inp.current_savings, inp.monthly_contribution * 12, -1⟩

/-- Embedding of retirement_calculator (retirement_app.py lines 28-91):
the full simulation, none modelling an uncaught ZeroDivisionError from
the loan EMI computation. -/
def retirement_calculator (inp : SimInput) : Option (List YearRecord) :=
  runAges inp (initState inp) (agesList inp)

/-- The loop state after the first k simulated years. -/
def stateAt (inp : SimInput) (k : ℕ) : Option LoopState :=
  iterStates inp (initState inp) ((agesList inp).take k)

/-- Closed form of the loan deduction applied in simulated year k: the EMI
of the principal inflated to the loan's start age, provided the start age
is reachable (current_age ≤ start), year k lies in the loan window and the
computed EMI is strictly positive. -/
def loanDeduction (inp : SimInput) (k : ℕ) : ℚ :=
  match inp.home_loan with
  | none => 0
  | some (s, p0, t, r) =>
      match calculate_annual_emi
          (p0 * (1 + inp.exp_inflation_rate) ^ ((s - inp.current_age).toNat)) r t with
      | none => 0
      | some e =>
          if inp.current_age ≤ s ∧ s ≤ inp.current_age + (k : ℤ) ∧
              inp.current_age + (k : ℤ) < s + (t : ℤ) ∧ 0 < e then e
          else 0

/-- Concrete valid input: ages 30 to 32, retirement at 31, all monetary
parameters zero, no loan. -/
def inpA : SimInput :=
  ⟨30, 31, 32, 0, 0, 0, 0, 0, 0, 0, [], none, .Custom, 0, 0, 60⟩

/-- The records emitted for inpA. -/
def recsA : List YearRecord := (retirement_calculator inpA).getD []

/-- Concrete input with a home loan of principal 1 at annual rate 12
(monthly rate 1) starting at age 31 for 2 years; ages 30 to 33. -/
def inpC4 : SimInput :=
  ⟨30, 31, 33, 0, 0, 0, 0, 0, 0, 0, [], some (31, 1, 2, 12), .Custom, 0, 0, 60⟩

/-- The EMI of a principal of 1 at annual rate 12 over 2 years. -/
def eC4 : ℚ := (calculate_annual_emi 1 12 2).getD 0

/-- The records emitted for inpC4. -/
def recsC4 : List YearRecord := (retirement_calculator inpC4).getD []

/-- Concrete input with a monthly contribution of 1 growing at 100% per
year; retirement at 32, ages 30 to 33. -/
def inpC5 : SimInput :=
  ⟨30, 32, 33, 0, 1, 0, 0, 0, 0, 1, [], none, .Custom, 0, 0, 60⟩

/-- The records emitted for inpC5. -/
def recsC5 : List YearRecord := (retirement_calculator inpC5).getD []

/-- Concrete input with an annual retirement expense of 100 at 100%
inflation; retirement at 31, ages 30 to 32. -/
def inpC6 : SimInput :=
  ⟨30, 31, 32, 0, 0, 0, 0, 100, 1, 0, [], none, .Custom, 0, 0, 60⟩

/-- The records emitted for inpC6. -/
def recsC6 : List YearRecord := (retirement_calculator inpC6).getD []

/-- Concrete input with two one-time expenses at the same age 35
(amounts 100000 and 1) and zero inflation; ages 34 to 36. -/
def inpC7 : SimInput :=
  ⟨34, 35, 36, 0, 0, 0, 0, 0, 0, 0, [(35, 100000), (35, 1)], none, .Custom, 0, 0, 60⟩

/-- The records emitted for inpC7. -/
def recsC7 : List YearRecord := (retirement_calculator inpC7).getD []

/-- Concrete input violating the range invariant: current age 50 is past
the retirement age 40. -/
def inpBad : SimInput :=
  ⟨50, 40, 60, 0, 0, 0, 0, 0, 0, 0, [], none, .Custom, 0, 0, 50⟩

/-- The records emitted for inpBad. -/
def recsBad8 : List YearRecord := (retirement_calculator inpBad).getD []

/-- Concrete input with savings 1000, equity return 1 at a constant 50%
allocation; ages 30 to 32, retirement at 31. -/
def inpC9 : SimInput :=
  ⟨30, 31, 32, 1000, 0, 1, 0, 0, 0, 0, [], none, .Custom, 0.5, 0.5, 60⟩

/-- The records emitted for inpC9. -/
def recsC9 : List YearRecord := (retirement_calculator inpC9).getD []

/-- Concrete input with a home loan whose start age 20 is below the
current age 30 and whose rate is 0 (never computed, so no crash). -/
def inpC10 : SimInput :=
  ⟨30, 31, 32, 0, 0, 0, 0, 0, 0, 0, [], some (20, 5, 3, 0), .Custom, 0, 0, 60⟩

/-- The one-time-expense loop subtracts the sum of all matching inflated
entries from the balance and adds the same sum to the expense. -/
theorem applyOneTime_spec (inp : SimInput) (age : ℤ) :
    ∀ (l : List (ℤ × ℚ)) (b ex : ℚ),
      applyOneTime inp age (b, ex) l =
        (b - oneTimeSum inp age l, ex + oneTimeSum inp age l) := by
  intro l
  induction l with
  | nil => intro b ex; simp [applyOneTime, oneTimeSum]
  | cons q rest ih =>
    intro b ex
    by_cases h : age = q.1
    · simp only [applyOneTime, oneTimeSum, List.map_cons, List.sum_cons, if_pos h, ih]
      refine Prod.ext ?_ ?_ <;> simp <;> ring
    · simp only [applyOneTime, oneTimeSum, List.map_cons, List.sum_cons, if_neg h, ih]
      refine Prod.ext ?_ ?_ <;> simp

/-- All components of one loop iteration, expressed with the total
one-time expense and the loan deduction. -/
theorem stepCore_spec (inp : SimInput) (st : LoopState) (age : ℤ) (m1 : ℚ) :
    (stepCore inp st age m1).1.balance =
        st.balance * (1 + annualReturnOf inp age)
          + (if age < inp.retirement_age then st.contrib else 0)
          - ((if inp.retirement_age ≤ age then
                inp.annual_ret_expenses *
                  (1 + inp.exp_inflation_rate) ^ (age - inp.current_age).toNat
              else 0)
             + oneTimeTotal inp age + dedAmt inp age m1)
    ∧ (stepCore inp st age m1).1.contrib =
        (if age < inp.retirement_age then st.contrib * (1 + inp.annual_contrib_increase)
         else st.contrib)
    ∧ (stepCore inp st age m1).1.emi_amount = m1
    ∧ (stepCore inp st age m1).2.age = age
    ∧ (stepCore inp st age m1).2.netWorth = (stepCore inp st age m1).1.balance / 1e7
    ∧ (stepCore inp st age m1).2.contribution =
        (if age < inp.retirement_age then st.contrib else 0) / 1e7
    ∧ (stepCore inp st age m1).2.expense =
        ((if inp.retirement_age ≤ age then
            inp.annual_ret_expenses *
              (1 + inp.exp_inflation_rate) ^ (age - inp.current_age).toNat
          else 0)
         + oneTimeTotal inp age + dedAmt inp age m1) / 1e7
    ∧ (stepCore inp st age m1).2.investmentReturn =
        (st.balance * annualReturnOf inp age) / 1e7
    ∧ (stepCore inp st age m1).2.equityPct = allocOf inp age * 100 := by
  simp only [stepCore, oneTimeTotal, applyOneTime_spec]
  refine ⟨by ring, ?_, ?_, ?_, ?_, ?_, ?_, ?_, ?_⟩ <;> trivial

/-- A year step succeeds exactly when the EMI resolution does, and then it
is stepCore at the resolved value. -/
theorem yearStep_eq_some (inp : SimInput) (st : LoopState) (age : ℤ)
    (p : LoopState × YearRecord) :
    yearStep inp st age = some p ↔
      ∃ m1, resolvedEmi inp st age = some m1 ∧ p = stepCore inp st age m1 := by
  cases h : resolvedEmi inp st age with
  | none => simp [yearStep, h]
  | some m1 =>
    simp only [yearStep, h, Option.map_some', Option.some.injEq]
    constructor
    · intro hp; exact ⟨m1, rfl, hp.symm⟩
    · rintro ⟨m2, hm2, hp⟩
      obtain rfl : m1 = m2 := by simpa using hm2
      exact hp.symm

/-- Unfolding of the record loop on a cons cell. -/
theorem runAges_cons_eq_some (inp : SimInput) (st : LoopState) (a : ℤ)
    (rest : List ℤ) (recs : List YearRecord) :
    runAges inp st (a :: rest) = some recs ↔
      ∃ st' r rs, yearStep inp st a = some (st', r) ∧
        runAges inp st' rest = some rs ∧ recs = r :: rs := by
  cases h : yearStep inp st a with
  | none => simp [runAges, h]
  | some p =>
    obtain ⟨st', r⟩ := p
    cases h2 : runAges inp st' rest with
    | none => simp [runAges, h, h2]
    | some rs =>
        simp only [runAges, h, h2]
        constructor
        · intro hr
          have hrecs : recs = r :: rs := by simpa using hr.symm
          subst hrecs
          exact ⟨st', r, rs, rfl, h2, rfl⟩
        · rintro ⟨st2, r2, rs2, h3, h4, rfl⟩
          have h5 : st' = st2 ∧ r = r2 := by
            simpa [Prod.ext_iff] using h3
          obtain ⟨rfl, rfl⟩ := h5
          have h7 : rs2 = rs := by simpa using h4.symm.trans h2
          subst h7
          rfl

/-- A successful run emits one record per age. -/
theorem runAges_length (inp : SimInput) :
    ∀ (ages : List ℤ) (st : LoopState) (recs : List YearRecord),
      runAges inp st ages = some recs → recs.length = ages.length := by
  intro ages
  induction ages with
  | nil => intro st recs h; simp [runAges] at h; simp [← h]
  | cons a rest ih =>
    intro st recs h
    obtain ⟨st', r, rs, _, h2, rfl⟩ := (runAges_cons_eq_some inp st a rest recs).1 h
    simp [ih st' rs h2]

/-- A state step over a single age. -/
theorem iterStates_singleton (inp : SimInput) (st : LoopState) (a : ℤ) :
    iterStates inp st [a] = (yearStep inp st a).map Prod.fst := by
  cases h : yearStep inp st a with
  | none => simp [iterStates, h]
  | some p => obtain ⟨st', r⟩ := p; simp [iterStates, h]

/-- The state loop distributes over list append. -/
theorem iterStates_append (inp : SimInput) :
    ∀ (l1 l2 : List ℤ) (st : LoopState),
      iterStates inp st (l1 ++ l2) =
        (iterStates inp st l1).bind (fun s => iterStates inp s l2) := by
  intro l1
  induction l1 with
  | nil => intro l2 st; simp [iterStates]
  | cons a rest ih =>
    intro l2 st
    cases h : yearStep inp st a with
    | none => simp [iterStates, h]
    | some p =>
      obtain ⟨st', r⟩ := p
      simp only [List.cons_append, iterStates, h]
      exact ih l2 st'

/-- Indexed characterization of a successful run: the k-th emitted record
is produced by one year step from the state reached after k steps. -/
theorem runAges_index (inp : SimInput) :
    ∀ (ages : List ℤ) (st : LoopState) (recs : List YearRecord),
      runAges inp st ages = some recs →
      ∀ (k : ℕ) (hk : k < ages.length) (hk' : k < recs.length),
        ∃ st1 p, iterStates inp st (ages.take k) = some st1 ∧
          yearStep inp st1 (ages.get ⟨k, hk⟩) = some p ∧
          p.2 = recs.get ⟨k, hk'⟩ ∧
          iterStates inp st (ages.take (k + 1)) = some p.1 := by
  intro ages
  induction ages with
  | nil => intro st recs _ k hk; exact absurd hk (by simp)
  | cons a rest ih =>
    intro st recs hrun k hk hk'
    obtain ⟨st', r, rs, h1, h2, rfl⟩ := (runAges_cons_eq_some inp st a rest recs).1 hrun
    cases k with
    | zero =>
      refine ⟨st, (st', r), by simp [iterStates], h1, rfl, ?_⟩
      show iterStates inp st [a] = some st'
      rw [iterStates_singleton, h1]
      rfl
    | succ k =>
      have hk2 : k < rest.length := by simpa using hk
      have hk2' : k < rs.length := by simpa using hk'
      obtain ⟨st1, p, ha, hb, hc, hd⟩ := ih st' rs h2 k hk2 hk2'
      refine ⟨st1, p, ?_, hb, hc, ?_⟩
      · show iterStates inp st (a :: rest.take k) = some st1
        simpa [iterStates, h1] using ha
      · show iterStates inp st (a :: rest.take (k + 1)) = some p.1
        simpa [iterStates, h1] using hd

/-- The age list has one entry per simulated year. -/
theorem agesList_length (inp : SimInput) : (agesList inp).length = simYears inp := by
  simp [agesList]

/-- The k-th simulated age is current_age + k. -/
theorem agesList_get (inp : SimInput) (k : ℕ) (hk : k < (agesList inp).length) :
    (agesList inp).get ⟨k, hk⟩ = inp.current_age + (k : ℤ) := by
  simp [agesList]

/-- A prefix of the age list is the age list of the first k years. -/
theorem agesList_take (inp : SimInput) (k : ℕ) (hk : k ≤ simYears inp) :
    (agesList inp).take k = (List.range k).map (fun i : ℕ => inp.current_age + (i : ℤ)) := by
  rw [agesList, ← List.map_take, List.take_range, Nat.min_eq_left hk]

/-- The state before the first simulated year is the initial state. -/
theorem stateAt_zero (inp : SimInput) : stateAt inp 0 = some (initState inp) := rfl

/-- The state advances by one year step per index. -/
theorem stateAt_succ (inp : SimInput) (k : ℕ) (hk : k < simYears inp) :
    stateAt inp (k + 1) =
      (stateAt inp k).bind
        (fun st => (yearStep inp st (inp.current_age + (k : ℤ))).map Prod.fst) := by
  unfold stateAt
  rw [agesList_take inp (k + 1) hk, agesList_take inp k hk.le, List.range_succ,
    List.map_append, iterStates_append]
  cases iterStates inp (initState inp) ((List.range k).map fun i : ℕ => inp.current_age + (i : ℤ)) with
  | none => simp
  | some st => simp [iterStates_singleton]

/-- A successful simulation emits one record per simulated year. -/
theorem calc_length (inp : SimInput) (recs : List YearRecord)
    (h : retirement_calculator inp = some recs) : recs.length = simYears inp := by
  have h2 := runAges_length inp (agesList inp) (initState inp) recs h
  simpa [agesList_length] using h2

/-- Indexed characterization of a successful simulation: the k-th record
comes from one year step at age current_age + k from the k-th state. -/
theorem calc_index (inp : SimInput) (recs : List YearRecord)
    (h : retirement_calculator inp = some recs) (k : ℕ) (hk' : k < recs.length) :
    ∃ st1 p, stateAt inp k = some st1 ∧
      yearStep inp st1 (inp.current_age + (k : ℤ)) = some p ∧
      p.2 = recs.get ⟨k, hk'⟩ ∧ stateAt inp (k + 1) = some p.1 := by
  have hlen := calc_length inp recs h
  have hk : k < (agesList inp).length := by rw [agesList_length]; omega
  obtain ⟨st1, p, ha, hb, hc, hd⟩ :=
    runAges_index inp (agesList inp) (initState inp) recs h k hk hk'
  rw [agesList_get inp k hk] at hb
  exact ⟨st1, p, ha, hb, hc, hd⟩

/-- Elimination form of a successful state step: the state after k + 1
years comes from the state after k years by one stepCore at the resolved
emi_amount. -/
theorem stateAt_succ_elim (inp : SimInput) (k : ℕ) (hk : k < simYears inp) (st : LoopState)
    (hst : stateAt inp (k + 1) = some st) :
    ∃ st0 m1, stateAt inp k = some st0 ∧
      resolvedEmi inp st0 (inp.current_age + (k : ℤ)) = some m1 ∧
      st = (stepCore inp st0 (inp.current_age + (k : ℤ)) m1).1 := by
  rw [stateAt_succ inp k hk] at hst
  cases hq : stateAt inp k with
  | none => rw [hq] at hst; exact absurd hst (by simp)
  | some st0 =>
    rw [hq] at hst
    simp only [Option.some_bind] at hst
    cases hy : yearStep inp st0 (inp.current_age + (k : ℤ)) with
    | none => rw [hy] at hst; exact absurd hst (by simp)
    | some p =>
      rw [hy] at hst
      simp only [Option.map_some'] at hst
      obtain ⟨m1, hm, hp⟩ := (yearStep_eq_some inp st0 _ p).1 hy
      refine ⟨st0, m1, rfl, hm, ?_⟩
      have hps : p.1 = st := by simpa using hst
      rw [← hps, hp]

/-- With no home loan the EMI resolution never changes the stored value. -/
theorem resolvedEmi_none (inp : SimInput) (st : LoopState) (age : ℤ)
    (h : inp.home_loan = none) : resolvedEmi inp st age = some st.emi_amount := by
  simp [resolvedEmi, h]

/-- The running contribution amount after k simulated years: it compounds
once per working year and freezes at retirement. -/
theorem stateAt_contrib (inp : SimInput) :
    ∀ k : ℕ, k ≤ simYears inp → ∀ st, stateAt inp k = some st →
      st.contrib = inp.monthly_contribution * 12 *
        (1 + inp.annual_contrib_increase) ^
          min k (inp.retirement_age - inp.current_age).toNat := by
  intro k
  induction k with
  | zero =>
    intro _ st hst
    rw [stateAt_zero] at hst
    have h0 : initState inp = st := by simpa using hst
    subst h0
    simp [initState]
  | succ k ih =>
    intro hk st hst
    have hk1 : k < simYears inp := by omega
    obtain ⟨st0, m1, hq, hm, hp⟩ := stateAt_succ_elim inp k hk1 st hst
    have hcon := (stepCore_spec inp st0 (inp.current_age + (k : ℤ)) m1).2.1
    rw [← hp] at hcon
    rw [hcon, ih (by omega) st0 hq]
    by_cases hlt : inp.current_age + (k : ℤ) < inp.retirement_age
    · rw [if_pos hlt]
      have h1 : min k (inp.retirement_age - inp.current_age).toNat = k := by omega
      have h2 : min (k + 1) (inp.retirement_age - inp.current_age).toNat = k + 1 := by omega
      rw [h1, h2, pow_succ]
      ring
    · rw [if_neg hlt]
      have h1 : min k (inp.retirement_age - inp.current_age).toNat =
          (inp.retirement_age - inp.current_age).toNat := by omega
      have h2 : min (k + 1) (inp.retirement_age - inp.current_age).toNat =
          (inp.retirement_age - inp.current_age).toNat := by omega
      rw [h1, h2]

/-- With no home loan the emi_amount stays at its -1 sentinel forever. -/
theorem stateAt_emi_none (inp : SimInput) (h : inp.home_loan = none) :
    ∀ k : ℕ, k ≤ simYears inp → ∀ st, stateAt inp k = some st →
      st.emi_amount = -1 := by
  intro k
  induction k with
  | zero =>
    intro _ st hst
    rw [stateAt_zero] at hst
    have h0 : initState inp = st := by simpa using hst
    subst h0
    rfl
  | succ k ih =>
    intro hk st hst
    have hk1 : k < simYears inp := by omega
    obtain ⟨st0, m1, hq, hm, hp⟩ := stateAt_succ_elim inp k hk1 st hst
    rw [resolvedEmi_none inp st0 _ h] at hm
    have hm1 : st0.emi_amount = m1 := by simpa using hm
    have he := (stepCore_spec inp st0 (inp.current_age + (k : ℤ)) m1).2.2.1
    rw [← hp] at he
    rw [he, ← hm1]
    exact ih (by omega) st0 hq

/-- With a home loan, the emi_amount after k simulated years is the -1
sentinel until the loan's start age has been simulated, and from then on
it stores the successful result of the EMI computation at the start age
(on the principal inflated to the start age). -/
theorem stateAt_emi_some (inp : SimInput) (s : ℤ) (P : ℚ) (t : ℕ) (r : ℚ)
    (h : inp.home_loan = some (s, P, t, r)) :
    ∀ k : ℕ, k ≤ simYears inp → ∀ st, stateAt inp k = some st →
      if inp.current_age ≤ s ∧ (s - inp.current_age).toNat < k then
        calculate_annual_emi
          (P * (1 + inp.exp_inflation_rate) ^ ((s - inp.current_age).toNat)) r t =
          some st.emi_amount
      else st.emi_amount = -1 := by
  intro k
  induction k with
  | zero =>
    intro _ st hst
    rw [stateAt_zero] at hst
    have h0 : initState inp = st := by simpa using hst
    subst h0
    rw [if_neg (by omega)]
    rfl
  | succ k ih =>
    intro hk st hst
    have hk1 : k < simYears inp := by omega
    obtain ⟨st0, m1, hq, hm, hp⟩ := stateAt_succ_elim inp k hk1 st hst
    have he := (stepCore_spec inp st0 (inp.current_age + (k : ℤ)) m1).2.2.1
    rw [← hp] at he
    have hih := ih (by omega) st0 hq
    simp only [resolvedEmi, h] at hm
    by_cases hcond : inp.current_age + (k : ℤ) = s ∧ st0.emi_amount < 0
    · rw [if_pos hcond] at hm
      have has : inp.current_age + (k : ℤ) = s := hcond.1
      have hexp : ((inp.current_age + (k : ℤ)) - inp.current_age).toNat =
          (s - inp.current_age).toNat := by omega
      rw [hexp] at hm
      rw [if_pos (by omega), he]
      exact hm
    · rw [if_neg hcond] at hm
      have hm1 : st0.emi_amount = m1 := by simpa using hm
      by_cases hc2 : inp.current_age ≤ s ∧ (s - inp.current_age).toNat < k
      · rw [if_pos hc2] at hih
        rw [if_pos (by omega), he, ← hm1]
        exact hih
      · rw [if_neg hc2] at hih
        have hgoal : ¬(inp.current_age ≤ s ∧ (s - inp.current_age).toNat < k + 1) := by
          rintro ⟨hcs, hlt⟩
          have hne : inp.current_age + (k : ℤ) ≠ s := by
            intro hEq
            exact hcond ⟨hEq, by rw [hih]; norm_num⟩
          omega
        rw [if_neg hgoal, he, ← hm1]
        exact hih

/-- Record-level characterization of a successful simulation: the k-th
record is the stepCore output at age current_age + k from the k-th state
with the resolved emi_amount. -/
theorem calc_record_spec (inp : SimInput) (recs : List YearRecord)
    (h : retirement_calculator inp = some recs) (k : ℕ) (hk' : k < recs.length) :
    ∃ st1 m1, stateAt inp k = some st1 ∧
      resolvedEmi inp st1 (inp.current_age + (k : ℤ)) = some m1 ∧
      stateAt inp (k + 1) = some (stepCore inp st1 (inp.current_age + (k : ℤ)) m1).1 ∧
      recs.get ⟨k, hk'⟩ = (stepCore inp st1 (inp.current_age + (k : ℤ)) m1).2 := by
  obtain ⟨st1, p, ha, hb, hc, hd⟩ := calc_index inp recs h k hk'
  obtain ⟨m1, hm, hp⟩ := (yearStep_eq_some inp st1 _ p).1 hb
  refine ⟨st1, m1, ha, hm, ?_, ?_⟩
  · rw [hd, hp]
  · rw [← hc, hp]

/-- In a reachable state, the loan deduction of year k computed from the
resolved emi_amount coincides with its closed form. -/
theorem dedAmt_eq_loanDeduction (inp : SimInput) (k : ℕ) (hk : k < simYears inp)
    (st1 : LoopState) (m1 : ℚ) (hst : stateAt inp k = some st1)
    (hm : resolvedEmi inp st1 (inp.current_age + (k : ℤ)) = some m1) :
    dedAmt inp (inp.current_age + (k : ℤ)) m1 = loanDeduction inp k := by
  cases hl : inp.home_loan with
  | none => simp [dedAmt, loanDeduction, hl]
  | some q =>
    obtain ⟨s, P, t, r⟩ := q
    have hemi := stateAt_emi_some inp s P t r hl k hk.le st1 hst
    simp only [resolvedEmi, hl] at hm
    cases hcalc : calculate_annual_emi
        (P * (1 + inp.exp_inflation_rate) ^ ((s - inp.current_age).toNat)) r t with
    | none =>
      simp only [dedAmt, loanDeduction, hl, hcalc]
      by_cases hcond : inp.current_age + (k : ℤ) = s ∧ st1.emi_amount < 0
      · rw [if_pos hcond] at hm
        have hexp : ((inp.current_age + (k : ℤ)) - inp.current_age).toNat =
            (s - inp.current_age).toNat := by omega
        rw [hexp, hcalc] at hm
        exact absurd hm (by simp)
      · rw [if_neg hcond] at hm
        have hm1 : st1.emi_amount = m1 := by simpa using hm
        by_cases hc2 : inp.current_age ≤ s ∧ (s - inp.current_age).toNat < k
        · rw [if_pos hc2] at hemi
          rw [hcalc] at hemi
          exact absurd hemi (by simp)
        · rw [if_neg hc2] at hemi
          have hnm : ¬(s ≤ inp.current_age + (k : ℤ) ∧
              inp.current_age + (k : ℤ) < s + (t : ℤ) ∧ 0 < m1) := by
            rintro ⟨-, -, hpos⟩
            rw [← hm1, hemi] at hpos
            norm_num at hpos
          rw [if_neg hnm]
    | some e =>
      simp only [dedAmt, loanDeduction, hl, hcalc]
      by_cases hcond : inp.current_age + (k : ℤ) = s ∧ st1.emi_amount < 0
      · rw [if_pos hcond] at hm
        have hexp : ((inp.current_age + (k : ℤ)) - inp.current_age).toNat =
            (s - inp.current_age).toNat := by omega
        rw [hexp, hcalc] at hm
        have hme : e = m1 := by simpa using hm
        subst hme
        have hcs : inp.current_age ≤ s := by omega
        refine if_congr ?_ rfl rfl
        constructor
        · rintro ⟨h1, h2, h3⟩; exact ⟨hcs, h1, h2, h3⟩
        · rintro ⟨-, h1, h2, h3⟩; exact ⟨h1, h2, h3⟩
      · rw [if_neg hcond] at hm
        have hm1 : st1.emi_amount = m1 := by simpa using hm
        by_cases hc2 : inp.current_age ≤ s ∧ (s - inp.current_age).toNat < k
        · rw [if_pos hc2] at hemi
          rw [hcalc, hm1] at hemi
          have hme : e = m1 := by simpa using hemi
          subst hme
          refine if_congr ?_ rfl rfl
          constructor
          · rintro ⟨h1, h2, h3⟩; exact ⟨hc2.1, h1, h2, h3⟩
          · rintro ⟨-, h1, h2, h3⟩; exact ⟨h1, h2, h3⟩
        · rw [if_neg hc2] at hemi
          have hm2 : m1 = -1 := by rw [← hm1, hemi]
          have hnm : ¬(s ≤ inp.current_age + (k : ℤ) ∧
              inp.current_age + (k : ℤ) < s + (t : ℤ) ∧ 0 < m1) := by
            rintro ⟨-, -, hpos⟩
            rw [hm2] at hpos
            norm_num at hpos
          have hnr : ¬(inp.current_age ≤ s ∧ s ≤ inp.current_age + (k : ℤ) ∧
              inp.current_age + (k : ℤ) < s + (t : ℤ) ∧ 0 < e) := by
            rintro ⟨hcs, hsa, -, -⟩
            have hne : inp.current_age + (k : ℤ) ≠ s := by
              intro hEq
              exact hcond ⟨hEq, by rw [hemi]; norm_num⟩
            omega
          rw [if_neg hnm, if_neg hnr]

/-- The expense field of the k-th record of a successful simulation:
ongoing retirement expense (inflated by years since simulation start)
plus matching one-time expenses plus the loan deduction, divided by 1e7. -/
theorem calc_expense_spec (inp : SimInput) (recs : List YearRecord)
    (h : retirement_calculator inp = some recs) (k : ℕ) (hk' : k < recs.length) :
    (recs.get ⟨k, hk'⟩).expense =
      ((if inp.retirement_age ≤ inp.current_age + (k : ℤ) then
          inp.annual_ret_expenses * (1 + inp.exp_inflation_rate) ^ k else 0)
        + oneTimeTotal inp (inp.current_age + (k : ℤ)) + loanDeduction inp k) / 1e7 := by
  have hk : k < simYears inp := by have := calc_length inp recs h; omega
  obtain ⟨st1, m1, ha, hm, hc, hrec⟩ := calc_record_spec inp recs h k hk'
  rw [hrec]
  have hsp := (stepCore_spec inp st1 (inp.current_age + (k : ℤ)) m1).2.2.2.2.2.2.1
  have hexp : ((inp.current_age + (k : ℤ)) - inp.current_age).toNat = k := by omega
  rw [hsp, hexp, dedAmt_eq_loanDeduction inp k hk st1 m1 ha hm]

/-- The contribution field of the k-th record of a successful simulation:
the compounded annualized contribution while working, zero afterwards,
divided by 1e7. -/
theorem calc_contribution_spec (inp : SimInput) (recs : List YearRecord)
    (h : retirement_calculator inp = some recs) (k : ℕ) (hk' : k < recs.length) :
    (recs.get ⟨k, hk'⟩).contribution =
      (if inp.current_age + (k : ℤ) < inp.retirement_age then
        inp.monthly_contribution * 12 * (1 + inp.annual_contrib_increase) ^ k
       else 0) / 1e7 := by
  have hk : k < simYears inp := by have := calc_length inp recs h; omega
  obtain ⟨st1, m1, ha, hm, hc, hrec⟩ := calc_record_spec inp recs h k hk'
  rw [hrec]
  have hsp := (stepCore_spec inp st1 (inp.current_age + (k : ℤ)) m1).2.2.2.2.2.1
  rw [hsp]
  by_cases hlt : inp.current_age + (k : ℤ) < inp.retirement_age
  · rw [if_pos hlt, if_pos hlt, stateAt_contrib inp k hk.le st1 ha]
    have hmin : min k (inp.retirement_age - inp.current_age).toNat = k := by omega
    rw [hmin]
  · rw [if_neg hlt, if_neg hlt]

/-- The age field of the k-th record of a successful simulation. -/
theorem calc_age_spec (inp : SimInput) (recs : List YearRecord)
    (h : retirement_calculator inp = some recs) (k : ℕ) (hk' : k < recs.length) :
    (recs.get ⟨k, hk'⟩).age = inp.current_age + (k : ℤ) := by
  obtain ⟨st1, m1, ha, hm, hc, hrec⟩ := calc_record_spec inp recs h k hk'
  rw [hrec]
  exact (stepCore_spec inp st1 (inp.current_age + (k : ℤ)) m1).2.2.2.1

/-- Field-level characterization of the k-th record of a successful
simulation in terms of the internal balances before and after the year:
every monetary field is the internal amount divided by 1e7, the equity
field is the allocation fraction times 100, and the post-year balance is
the pre-year balance grown, plus the contribution, minus the expenses. -/
theorem calc_fields_spec (inp : SimInput) (recs : List YearRecord)
    (h : retirement_calculator inp = some recs) (k : ℕ) (hk' : k < recs.length)
    (st st' : LoopState)
    (hst : stateAt inp k = some st) (hst' : stateAt inp (k + 1) = some st') :
    (recs.get ⟨k, hk'⟩).netWorth = st'.balance / 1e7
    ∧ (recs.get ⟨k, hk'⟩).contribution =
        (if inp.current_age + (k : ℤ) < inp.retirement_age then st.contrib else 0) / 1e7
    ∧ (recs.get ⟨k, hk'⟩).investmentReturn =
        st.balance * annualReturnOf inp (inp.current_age + (k : ℤ)) / 1e7
    ∧ (recs.get ⟨k, hk'⟩).equityPct = allocOf inp (inp.current_age + (k : ℤ)) * 100
    ∧ (recs.get ⟨k, hk'⟩).expense * 1e7 =
        st.balance * (1 + annualReturnOf inp (inp.current_age + (k : ℤ)))
          + (if inp.current_age + (k : ℤ) < inp.retirement_age then st.contrib else 0)
          - st'.balance
    ∧ st'.balance =
        st.balance * (1 + annualReturnOf inp (inp.current_age + (k : ℤ)))
          + (if inp.current_age + (k : ℤ) < inp.retirement_age then st.contrib else 0)
          - ((if inp.retirement_age ≤ inp.current_age + (k : ℤ) then
                inp.annual_ret_expenses * (1 + inp.exp_inflation_rate) ^ k else 0)
             + oneTimeTotal inp (inp.current_age + (k : ℤ)) + loanDeduction inp k) := by
  have hk : k < simYears inp := by have := calc_length inp recs h; omega
  obtain ⟨st1, m1, ha, hm, hc, hrec⟩ := calc_record_spec inp recs h k hk'
  have e1 : st = st1 := by
    rw [hst] at ha
    have e1a : st1 = st := by simpa using ha.symm
    exact e1a.symm
  subst e1
  have e2 : st' = (stepCore inp st (inp.current_age + (k : ℤ)) m1).1 := by
    rw [hst'] at hc
    have e2a : (stepCore inp st (inp.current_age + (k : ℤ)) m1).1 = st' := by
      simpa using hc.symm
    exact e2a.symm
  obtain ⟨hb, hco, hem, hag, hnw, hcf, hef, hir, hep⟩ :=
    stepCore_spec inp st (inp.current_age + (k : ℤ)) m1
  have hexp : ((inp.current_age + (k : ℤ)) - inp.current_age).toNat = k := by omega
  have hded := dedAmt_eq_loanDeduction inp k hk st m1 ha hm
  refine ⟨?_, ?_, ?_, ?_, ?_, ?_⟩
  · rw [hrec, hnw, ← e2]
  · rw [hrec, hcf]
  · rw [hrec, hir]
  · rw [hrec, hep]
  · rw [hrec, hef]
    have h7 : (1e7 : ℚ) ≠ 0 := by norm_num
    rw [div_mul_cancel₀ _ h7]
    have hb2 := hb
    rw [← e2] at hb2
    linarith [hb2]
  · rw [e2, hb, hexp, hded]

/-- The same simulation input with the home loan removed. -/
def clearLoan (inp : SimInput) : SimInput :=
  ⟨inp.current_age, inp.retirement_age, inp.life_expectancy, inp.current_savings,
   inp.monthly_contribution, inp.equity_return, inp.fixed_income_return,
   inp.annual_ret_expenses, inp.exp_inflation_rate, inp.annual_contrib_increase,
   inp.one_time_expenses, none, inp.strategy, inp.custom_start, inp.custom_end,
   inp.custom_age⟩

/-- A non-positive resolved emi_amount is never deducted. -/
theorem dedAmt_of_nonpos (inp : SimInput) (age : ℤ) (m1 : ℚ) (h : ¬ 0 < m1) :
    dedAmt inp age m1 = 0 := by
  cases hl : inp.home_loan with
  | none => simp [dedAmt, hl]
  | some q =>
    obtain ⟨s, P, t, r⟩ := q
    simp only [dedAmt, hl]
    rw [if_neg]
    rintro ⟨-, -, hp⟩
    exact h hp

@[simp] theorem clearLoan_current_age (inp : SimInput) :
    (clearLoan inp).current_age = inp.current_age := rfl

@[simp] theorem clearLoan_retirement_age (inp : SimInput) :
    (clearLoan inp).retirement_age = inp.retirement_age := rfl

@[simp] theorem clearLoan_life_expectancy (inp : SimInput) :
    (clearLoan inp).life_expectancy = inp.life_expectancy := rfl

@[simp] theorem clearLoan_current_savings (inp : SimInput) :
    (clearLoan inp).current_savings = inp.current_savings := rfl

@[simp] theorem clearLoan_monthly_contribution (inp : SimInput) :
    (clearLoan inp).monthly_contribution = inp.monthly_contribution := rfl

@[simp] theorem clearLoan_equity_return (inp : SimInput) :
    (clearLoan inp).equity_return = inp.equity_return := rfl

@[simp] theorem clearLoan_fixed_income_return (inp : SimInput) :
    (clearLoan inp).fixed_income_return = inp.fixed_income_return := rfl

@[simp] theorem clearLoan_annual_ret_expenses (inp : SimInput) :
    (clearLoan inp).annual_ret_expenses = inp.annual_ret_expenses := rfl

@[simp] theorem clearLoan_exp_inflation_rate (inp : SimInput) :
    (clearLoan inp).exp_inflation_rate = inp.exp_inflation_rate := rfl

@[simp] theorem clearLoan_annual_contrib_increase (inp : SimInput) :
    (clearLoan inp).annual_contrib_increase = inp.annual_contrib_increase := rfl

@[simp] theorem clearLoan_one_time_expenses (inp : SimInput) :
    (clearLoan inp).one_time_expenses = inp.one_time_expenses := rfl

@[simp] theorem clearLoan_home_loan (inp : SimInput) :
    (clearLoan inp).home_loan = none := rfl

@[simp] theorem clearLoan_strategy (inp : SimInput) :
    (clearLoan inp).strategy = inp.strategy := rfl

@[simp] theorem clearLoan_custom_start (inp : SimInput) :
    (clearLoan inp).custom_start = inp.custom_start := rfl

@[simp] theorem clearLoan_custom_end (inp : SimInput) :
    (clearLoan inp).custom_end = inp.custom_end := rfl

@[simp] theorem clearLoan_custom_age (inp : SimInput) :
    (clearLoan inp).custom_age = inp.custom_age := rfl

/-- Removing the loan does not change the one-time-expense processing. -/
theorem applyOneTime_clearLoan (inp : SimInput) (a : ℤ) :
    ∀ (l : List (ℤ × ℚ)) (p : ℚ × ℚ),
      applyOneTime (clearLoan inp) a p l = applyOneTime inp a p l := by
  intro l
  induction l with
  | nil => intro p; rfl
  | cons q rest ih =>
    intro p
    simp only [applyOneTime, clearLoan_exp_inflation_rate, clearLoan_current_age]
    by_cases hq : a = q.1
    · rw [if_pos hq, if_pos hq, ih]
    · rw [if_neg hq, if_neg hq, ih]

/-- A year step at a non-positive emi_amount emits the same record and the
same balance and contribution as the loan-free input. -/
theorem stepCore_clearLoan (inp : SimInput) (st st' : LoopState) (a : ℤ) (m1 m2 : ℚ)
    (hb : st.balance = st'.balance) (hc : st.contrib = st'.contrib) (hm : ¬ 0 < m1) :
    (stepCore inp st a m1).2 = (stepCore (clearLoan inp) st' a m2).2
    ∧ (stepCore inp st a m1).1.balance = (stepCore (clearLoan inp) st' a m2).1.balance
    ∧ (stepCore inp st a m1).1.contrib = (stepCore (clearLoan inp) st' a m2).1.contrib := by
  have hd1 : dedAmt inp a m1 = 0 := dedAmt_of_nonpos inp a m1 hm
  have hd2 : dedAmt (clearLoan inp) a m2 = 0 := by simp [dedAmt]
  have hap := applyOneTime_clearLoan inp a
  refine ⟨?_, ?_, ?_⟩ <;>
    simp [stepCore, allocOf, annualReturnOf, hb, hc, hd1, hd2, hap]

/-- If the loan's start age is never simulated, or the EMI the loop would
compute is not strictly positive, then the loop behaves exactly as with no
loan configured, from any pair of states agreeing on balance and
contribution with a non-positive stored emi_amount on the loan side. -/
theorem runAges_clearLoan (inp : SimInput) (s : ℤ) (P : ℚ) (t : ℕ) (r : ℚ)
    (hl : inp.home_loan = some (s, P, t, r)) :
    ∀ (ages : List ℤ) (st st' : LoopState),
      st.balance = st'.balance → st.contrib = st'.contrib → st.emi_amount ≤ 0 →
      (s ∉ ages ∨ ∃ e, calculate_annual_emi
          (P * (1 + inp.exp_inflation_rate) ^ ((s - inp.current_age).toNat)) r t =
            some e ∧ e ≤ 0) →
      runAges inp st ages = runAges (clearLoan inp) st' ages := by
  intro ages
  induction ages with
  | nil => intro st st' _ _ _ _; rfl
  | cons a rest ih =>
    intro st st' hb hc he hcase
    have hres : ∃ m1, resolvedEmi inp st a = some m1 ∧ m1 ≤ 0 := by
      simp only [resolvedEmi, hl]
      by_cases hcond : a = s ∧ st.emi_amount < 0
      · rw [if_pos hcond]
        rcases hcase with hnin | ⟨e, hce, hee⟩
        · exfalso
          apply hnin
          rw [← hcond.1]
          exact List.mem_cons_self a rest
        · refine ⟨e, ?_, hee⟩
          rw [hcond.1]
          exact hce
      · rw [if_neg hcond]
        exact ⟨st.emi_amount, rfl, he⟩
    obtain ⟨m1, hm1, hm1n⟩ := hres
    have hres2 : resolvedEmi (clearLoan inp) st' a = some st'.emi_amount :=
      resolvedEmi_none (clearLoan inp) st' a rfl
    have hsc := stepCore_clearLoan inp st st' a m1 st'.emi_amount hb hc (not_lt.mpr hm1n)
    have hy1 : yearStep inp st a = some (stepCore inp st a m1) := by
      rw [yearStep, hm1]
      rfl
    have hy2 : yearStep (clearLoan inp) st' a =
        some (stepCore (clearLoan inp) st' a st'.emi_amount) := by
      rw [yearStep, hres2]
      rfl
    have hrest : runAges inp (stepCore inp st a m1).1 rest =
        runAges (clearLoan inp) (stepCore (clearLoan inp) st' a st'.emi_amount).1 rest := by
      apply ih
      · exact hsc.2.1
      · exact hsc.2.2
      · rw [(stepCore_spec inp st a m1).2.2.1]
        exact hm1n
      · rcases hcase with hnin | hsome
        · exact Or.inl (fun hmem => hnin (List.mem_cons_of_mem a hmem))
        · exact Or.inr hsome
    simp only [runAges, hy1, hy2, hrest, hsc.1]

/-- With no home loan the loop can never fail. -/
theorem runAges_isSome_of_none (inp : SimInput) (h : inp.home_loan = none) :
    ∀ (ages : List ℤ) (st : LoopState), ∃ recs, runAges inp st ages = some recs := by
  intro ages
  induction ages with
  | nil => intro st; exact ⟨[], rfl⟩
  | cons a rest ih =>
    intro st
    have hy : yearStep inp st a = some (stepCore inp st a st.emi_amount) := by
      rw [yearStep, resolvedEmi_none inp st a h]
      rfl
    obtain ⟨rs, hrs⟩ := ih (stepCore inp st a st.emi_amount).1
    exact ⟨(stepCore inp st a st.emi_amount).2 :: rs, by simp only [runAges, hy, hrs]⟩

/-- The loan start age is outside the simulated range when it is below
current_age or above life_expectancy. -/
theorem not_mem_agesList (inp : SimInput) (s : ℤ)
    (h : s < inp.current_age ∨ inp.life_expectancy < s) : s ∉ agesList inp := by
  intro hmem
  simp only [agesList, List.mem_map, List.mem_range, simYears] at hmem
  obtain ⟨i, hi, hEq⟩ := hmem
  omega

/-- C1: for every valid SimulationInput (currentAge < retirementAge <
lifeExpectancy) whose simulation completes, the projection emits exactly
lifeExpectancy - currentAge + 1 records, one per integer age, strictly
ascending in steps of 1 from currentAge (hence ending at lifeExpectancy). -/
theorem c1_record_count_and_ages (inp : SimInput) (recs : List YearRecord)
    (h : retirement_calculator inp = some recs)
    (h1 : inp.current_age < inp.retirement_age)
    (h2 : inp.retirement_age < inp.life_expectancy) :
    recs.length = (inp.life_expectancy - inp.current_age + 1).toNat
    ∧ ∀ (k : ℕ) (hk : k < recs.length),
        (recs.get ⟨k, hk⟩).age = inp.current_age + (k : ℤ) := by
  refine ⟨calc_length inp recs h, ?_⟩
  intro k hk
  exact calc_age_spec inp recs h k hk

/-- Length of the inpA record list. -/
theorem recsA_len : recsA.length = 3 := by
  norm_num [recsA, inpA, retirement_calculator, agesList, simYears, runAges, yearStep,
    resolvedEmi, stepCore, initState, applyOneTime, allocOf, annualReturnOf,
    get_equity_allocation, strategyPcts, dedAmt, List.range_succ]

/-- Witness for C1 at the concrete input inpA. -/
theorem c1_witness :
    retirement_calculator inpA = some recsA
    ∧ inpA.current_age < inpA.retirement_age
    ∧ inpA.retirement_age < inpA.life_expectancy
    ∧ recsA.length = (inpA.life_expectancy - inpA.current_age + 1).toNat
    ∧ (recsA.get ⟨2, by rw [recsA_len]; norm_num⟩).age = inpA.current_age + ((2 : ℕ) : ℤ) := by
  have hA : retirement_calculator inpA = some recsA := by
    norm_num [recsA, inpA, retirement_calculator, agesList, simYears, runAges, yearStep,
      resolvedEmi, stepCore, initState, applyOneTime, allocOf, annualReturnOf,
      get_equity_allocation, strategyPcts, dedAmt, List.range_succ]
  have h1 : inpA.current_age < inpA.retirement_age := by norm_num [inpA]
  have h2 : inpA.retirement_age < inpA.life_expectancy := by norm_num [inpA]
  have hmain := c1_record_count_and_ages inpA recsA hA h1 h2
  exact ⟨hA, h1, h2, hmain.1, hmain.2 2 (by rw [recsA_len]; norm_num)⟩

/-- C2: the strategy resolves the glide percentages (Aggressive 0.90/0.30,
Balanced 0.85/0.20, Conservative 0.70/0.20, Custom verbatim), and assuming
startAge < endAge the allocation is startPct at or below startAge, endPct
at or above endAge, and the linear interpolation strictly between them. -/
theorem c2_allocation_spec (age start_age end_age : ℤ) (start_pct end_pct : ℚ)
    (strategy : Strategy) (h : start_age < end_age) :
    strategyPcts .Aggressive start_pct end_pct = (0.9, 0.3)
    ∧ strategyPcts .Balanced start_pct end_pct = (0.85, 0.2)
    ∧ strategyPcts .Conservative start_pct end_pct = (0.7, 0.2)
    ∧ strategyPcts .Custom start_pct end_pct = (start_pct, end_pct)
    ∧ (age ≤ start_age →
        get_equity_allocation age strategy start_age end_age start_pct end_pct =
          (strategyPcts strategy start_pct end_pct).1)
    ∧ (end_age ≤ age →
        get_equity_allocation age strategy start_age end_age start_pct end_pct =
          (strategyPcts strategy start_pct end_pct).2)
    ∧ (start_age < age → age < end_age →
        get_equity_allocation age strategy start_age end_age start_pct end_pct =
          (strategyPcts strategy start_pct end_pct).1 -
            (((age : ℚ) - (start_age : ℚ)) / ((end_age : ℚ) - (start_age : ℚ))) *
              ((strategyPcts strategy start_pct end_pct).1 -
                (strategyPcts strategy start_pct end_pct).2)) := by
  refine ⟨rfl, rfl, rfl, rfl, ?_, ?_, ?_⟩
  · intro hle
    simp only [get_equity_allocation]
    rw [if_pos hle]
  · intro hge
    simp only [get_equity_allocation]
    rw [if_neg (by omega), if_pos hge]
  · intro hgt hlt
    simp only [get_equity_allocation]
    rw [if_neg (by omega), if_neg (by omega)]

/-- Witness for C2: Balanced interpolation at age 40 on the glide 27-60. -/
theorem c2_witness :
    (27 : ℤ) < 60
    ∧ get_equity_allocation 40 .Balanced 27 60 0 0 =
        (strategyPcts .Balanced 0 0).1 -
          ((((40 : ℤ) : ℚ) - ((27 : ℤ) : ℚ)) / (((60 : ℤ) : ℚ) - ((27 : ℤ) : ℚ))) *
            ((strategyPcts .Balanced 0 0).1 - (strategyPcts .Balanced 0 0).2)
    ∧ get_equity_allocation 20 .Aggressive 27 60 0 0 = 0.9
    ∧ get_equity_allocation 70 .Conservative 27 60 0 0 = 0.2 := by
  refine ⟨by norm_num, ?_, ?_, ?_⟩
  · exact (c2_allocation_spec 40 27 60 0 0 .Balanced (by norm_num)).2.2.2.2.2.2
      (by norm_num) (by norm_num)
  · rw [(c2_allocation_spec 20 27 60 0 0 .Aggressive (by norm_num)).2.2.2.2.1 (by norm_num)]
    rfl
  · rw [(c2_allocation_spec 70 27 60 0 0 .Conservative (by norm_num)).2.2.2.2.2.1 (by norm_num)]
    rfl

/-- C3: the source never special-cases a zero annual rate, so the EMI of
any principal over any term at rate 0 hits the zero denominator
(1 + 0/12)^n - 1 and raises ZeroDivisionError (modelled as none) instead
of returning principal / years; in particular emi(1200000, 0, 10) does not
return the annual payment 120000 the specification requires. -/
theorem c3_zero_rate_division_failure (P : ℚ) (n : ℕ) :
    calculate_annual_emi P 0 n = none := by
  norm_num [calculate_annual_emi]

/-- Witness for C3 at the concrete scenario input (principal 1200000,
rate 0, 10 years). -/
theorem c3_witness : calculate_annual_emi 1200000 0 10 = none :=
  c3_zero_rate_division_failure 1200000 10

/-- C4: with a home loan whose start age s lies in [currentAge,
lifeExpectancy], whose EMI e is computed once at age s from the principal
inflated by (1+inflation)^(s - currentAge), and is strictly positive, the
same unchanged amount e enters the expense of every simulated year with
age in [s, s + term) and of no other year. -/
theorem c4_loan_emi_window (inp : SimInput) (recs : List YearRecord)
    (s : ℤ) (P : ℚ) (t : ℕ) (r : ℚ) (e : ℚ)
    (hl : inp.home_loan = some (s, P, t, r))
    (hs1 : inp.current_age ≤ s) (hs2 : s ≤ inp.life_expectancy)
    (he : calculate_annual_emi
      (P * (1 + inp.exp_inflation_rate) ^ ((s - inp.current_age).toNat)) r t = some e)
    (hpos : 0 < e)
    (h : retirement_calculator inp = some recs) :
    ∀ (k : ℕ) (hk : k < recs.length),
      (recs.get ⟨k, hk⟩).expense =
        ((if inp.retirement_age ≤ inp.current_age + (k : ℤ) then
            inp.annual_ret_expenses * (1 + inp.exp_inflation_rate) ^ k else 0)
          + oneTimeTotal inp (inp.current_age + (k : ℤ))
          + (if s ≤ inp.current_age + (k : ℤ) ∧ inp.current_age + (k : ℤ) < s + (t : ℤ)
             then e else 0)) / 1e7 := by
  intro k hk
  rw [calc_expense_spec inp recs h k hk]
  have hld : loanDeduction inp k =
      (if s ≤ inp.current_age + (k : ℤ) ∧ inp.current_age + (k : ℤ) < s + (t : ℤ)
       then e else 0) := by
    simp only [loanDeduction, hl, he]
    by_cases hw : s ≤ inp.current_age + (k : ℤ) ∧ inp.current_age + (k : ℤ) < s + (t : ℤ)
    · rw [if_pos ⟨hs1, hw.1, hw.2, hpos⟩, if_pos hw]
    · rw [if_neg (by tauto), if_neg hw]
  rw [hld]

/-- Length of the inpC4 record list. -/
theorem recsC4_len : recsC4.length = 4 := by
  norm_num [recsC4, inpC4, retirement_calculator, agesList, simYears, runAges, yearStep,
    resolvedEmi, stepCore, initState, applyOneTime, allocOf, annualReturnOf,
    get_equity_allocation, strategyPcts, dedAmt, calculate_annual_emi, List.range_succ]

/-- Witness for C4 at the concrete input inpC4 (loan at age 31 for 2
years), instantiated in year k = 1 (age 31, inside the loan window). -/
theorem c4_witness :
    inpC4.home_loan = some (31, 1, 2, 12)
    ∧ inpC4.current_age ≤ 31
    ∧ (31 : ℤ) ≤ inpC4.life_expectancy
    ∧ calculate_annual_emi
        (1 * (1 + inpC4.exp_inflation_rate) ^ (((31 : ℤ) - inpC4.current_age).toNat)) 12 2 =
        some eC4
    ∧ 0 < eC4
    ∧ retirement_calculator inpC4 = some recsC4
    ∧ (recsC4.get ⟨1, by rw [recsC4_len]; norm_num⟩).expense =
        ((if inpC4.retirement_age ≤ inpC4.current_age + ((1 : ℕ) : ℤ) then
            inpC4.annual_ret_expenses * (1 + inpC4.exp_inflation_rate) ^ (1 : ℕ) else 0)
          + oneTimeTotal inpC4 (inpC4.current_age + ((1 : ℕ) : ℤ))
          + (if (31 : ℤ) ≤ inpC4.current_age + ((1 : ℕ) : ℤ) ∧
                inpC4.current_age + ((1 : ℕ) : ℤ) < 31 + ((2 : ℕ) : ℤ)
             then eC4 else 0)) / 1e7 := by
  have h1 : calculate_annual_emi
      (1 * (1 + inpC4.exp_inflation_rate) ^ (((31 : ℤ) - inpC4.current_age).toNat)) 12 2 =
      some eC4 := by
    norm_num [inpC4, calculate_annual_emi, eC4]
  have h2 : (0 : ℚ) < eC4 := by norm_num [eC4, calculate_annual_emi]
  have h3 : retirement_calculator inpC4 = some recsC4 := by
    norm_num [recsC4, inpC4, retirement_calculator, agesList, simYears, runAges, yearStep,
      resolvedEmi, stepCore, initState, applyOneTime, allocOf, annualReturnOf,
      get_equity_allocation, strategyPcts, dedAmt, calculate_annual_emi, List.range_succ]
  exact ⟨rfl, by norm_num [inpC4], by norm_num [inpC4], h1, h2, h3,
    c4_loan_emi_window inpC4 recsC4 31 1 2 12 eC4 rfl (by norm_num [inpC4])
      (by norm_num [inpC4]) h1 h2 h3 1 (by rw [recsC4_len]; norm_num)⟩

/-- C5: while working (age < retirementAge) the k-th record's contribution
is monthlyContribution * 12 * (1 + growth)^k; from retirement on it is 0;
and the running contribution amount after k years equals
monthlyContribution * 12 * (1 + growth)^(min k workingYears), i.e. it
compounds once per working year and freezes at retirement. -/
theorem c5_contribution_schedule (inp : SimInput) (recs : List YearRecord)
    (h : retirement_calculator inp = some recs) :
    ∀ (k : ℕ) (hk : k < recs.length),
      (inp.current_age + (k : ℤ) < inp.retirement_age →
        (recs.get ⟨k, hk⟩).contribution =
          inp.monthly_contribution * 12 * (1 + inp.annual_contrib_increase) ^ k / 1e7)
      ∧ (inp.retirement_age ≤ inp.current_age + (k : ℤ) →
          (recs.get ⟨k, hk⟩).contribution = 0)
      ∧ (∀ st, stateAt inp k = some st →
          st.contrib = inp.monthly_contribution * 12 *
            (1 + inp.annual_contrib_increase) ^
              min k (inp.retirement_age - inp.current_age).toNat) := by
  intro k hk
  have hk2 : k < simYears inp := by have := calc_length inp recs h; omega
  refine ⟨?_, ?_, fun st hst => stateAt_contrib inp k hk2.le st hst⟩
  · intro hlt
    rw [calc_contribution_spec inp recs h k hk, if_pos hlt]
  · intro hge
    rw [calc_contribution_spec inp recs h k hk, if_neg (not_lt.mpr hge)]
    norm_num

/-- Length of the inpC5 record list. -/
theorem recsC5_len : recsC5.length = 4 := by
  norm_num [recsC5, inpC5, retirement_calculator, agesList, simYears, runAges, yearStep,
    resolvedEmi, stepCore, initState, applyOneTime, allocOf, annualReturnOf,
    get_equity_allocation, strategyPcts, dedAmt, List.range_succ]

/-- Witness for C5 at the concrete input inpC5: contribution 24 = 12 * 2
in working year k = 1, contribution 0 in retired year k = 2, and the
running amount frozen at 48 after 3 years (retirement at k = 2). -/
theorem c5_witness :
    retirement_calculator inpC5 = some recsC5
    ∧ inpC5.current_age + ((1 : ℕ) : ℤ) < inpC5.retirement_age
    ∧ (recsC5.get ⟨1, by rw [recsC5_len]; norm_num⟩).contribution =
        inpC5.monthly_contribution * 12 * (1 + inpC5.annual_contrib_increase) ^ (1 : ℕ) / 1e7
    ∧ inpC5.retirement_age ≤ inpC5.current_age + ((2 : ℕ) : ℤ)
    ∧ (recsC5.get ⟨2, by rw [recsC5_len]; norm_num⟩).contribution = 0
    ∧ stateAt inpC5 3 = some ((stateAt inpC5 3).getD ⟨0, 0, 0⟩)
    ∧ ((stateAt inpC5 3).getD ⟨0, 0, 0⟩).contrib =
        inpC5.monthly_contribution * 12 * (1 + inpC5.annual_contrib_increase) ^
          min 3 ((inpC5.retirement_age - inpC5.current_age).toNat) := by
  have h3 : retirement_calculator inpC5 = some recsC5 := by
    norm_num [recsC5, inpC5, retirement_calculator, agesList, simYears, runAges, yearStep,
      resolvedEmi, stepCore, initState, applyOneTime, allocOf, annualReturnOf,
      get_equity_allocation, strategyPcts, dedAmt, List.range_succ]
  have hs : stateAt inpC5 3 = some ((stateAt inpC5 3).getD ⟨0, 0, 0⟩) := by
    norm_num [stateAt, iterStates, inpC5, agesList, simYears, yearStep, resolvedEmi,
      stepCore, initState, applyOneTime, allocOf, annualReturnOf, get_equity_allocation,
      strategyPcts, dedAmt, List.range_succ]
  have hmain := c5_contribution_schedule inpC5 recsC5 h3
  exact ⟨h3, by norm_num [inpC5],
    (hmain 1 (by rw [recsC5_len]; norm_num)).1 (by norm_num [inpC5]),
    by norm_num [inpC5],
    (hmain 2 (by rw [recsC5_len]; norm_num)).2.1 (by norm_num [inpC5]),
    hs,
    (hmain 3 (by rw [recsC5_len]; norm_num)).2.2 ((stateAt inpC5 3).getD ⟨0, 0, 0⟩) hs⟩

/-- C6: in every simulated year with age >= retirementAge the expense
includes the ongoing amount annualRetirementExpense * (1 + inflation)^k
with k = age - currentAge (years since simulation start), this amount is
subtracted from the balance, and no ongoing retirement expense appears in
any year with age < retirementAge. -/
theorem c6_ongoing_retirement_expense (inp : SimInput) (recs : List YearRecord)
    (h : retirement_calculator inp = some recs) :
    ∀ (k : ℕ) (hk : k < recs.length),
      (recs.get ⟨k, hk⟩).expense =
        ((if inp.retirement_age ≤ inp.current_age + (k : ℤ) then
            inp.annual_ret_expenses * (1 + inp.exp_inflation_rate) ^ k else 0)
          + oneTimeTotal inp (inp.current_age + (k : ℤ)) + loanDeduction inp k) / 1e7
      ∧ ∀ st st', stateAt inp k = some st → stateAt inp (k + 1) = some st' →
          st'.balance =
            st.balance * (1 + annualReturnOf inp (inp.current_age + (k : ℤ)))
              + (if inp.current_age + (k : ℤ) < inp.retirement_age then st.contrib else 0)
              - ((if inp.retirement_age ≤ inp.current_age + (k : ℤ) then
                    inp.annual_ret_expenses * (1 + inp.exp_inflation_rate) ^ k else 0)
                 + oneTimeTotal inp (inp.current_age + (k : ℤ)) + loanDeduction inp k) := by
  intro k hk
  exact ⟨calc_expense_spec inp recs h k hk,
    fun st st' hst hst' => (calc_fields_spec inp recs h k hk st st' hst hst').2.2.2.2.2⟩

/-- Length of the inpC6 record list. -/
theorem recsC6_len : recsC6.length = 3 := by
  norm_num [recsC6, inpC6, retirement_calculator, agesList, simYears, runAges, yearStep,
    resolvedEmi, stepCore, initState, applyOneTime, allocOf, annualReturnOf,
    get_equity_allocation, strategyPcts, dedAmt, List.range_succ]

/-- Witness for C6 at the concrete input inpC6 (retirement expense 100 at
100% inflation), instantiated in year k = 1 (age 31 = retirement age):
expense is 100 * 2^1 = 200 over 1e7. -/
theorem c6_witness :
    retirement_calculator inpC6 = some recsC6
    ∧ (recsC6.get ⟨1, by rw [recsC6_len]; norm_num⟩).expense =
        ((if inpC6.retirement_age ≤ inpC6.current_age + ((1 : ℕ) : ℤ) then
            inpC6.annual_ret_expenses * (1 + inpC6.exp_inflation_rate) ^ (1 : ℕ) else 0)
          + oneTimeTotal inpC6 (inpC6.current_age + ((1 : ℕ) : ℤ))
          + loanDeduction inpC6 1) / 1e7
    ∧ (recsC6.get ⟨1, by rw [recsC6_len]; norm_num⟩).expense = 200 / 1e7
    ∧ stateAt inpC6 1 = some ((stateAt inpC6 1).getD ⟨0, 0, 0⟩)
    ∧ stateAt inpC6 2 = some ((stateAt inpC6 2).getD ⟨0, 0, 0⟩)
    ∧ ((stateAt inpC6 2).getD ⟨0, 0, 0⟩).balance =
        ((stateAt inpC6 1).getD ⟨0, 0, 0⟩).balance *
            (1 + annualReturnOf inpC6 (inpC6.current_age + ((1 : ℕ) : ℤ)))
          + (if inpC6.current_age + ((1 : ℕ) : ℤ) < inpC6.retirement_age then
              ((stateAt inpC6 1).getD ⟨0, 0, 0⟩).contrib else 0)
          - ((if inpC6.retirement_age ≤ inpC6.current_age + ((1 : ℕ) : ℤ) then
                inpC6.annual_ret_expenses * (1 + inpC6.exp_inflation_rate) ^ (1 : ℕ) else 0)
             + oneTimeTotal inpC6 (inpC6.current_age + ((1 : ℕ) : ℤ))
             + loanDeduction inpC6 1) := by
  have h3 : retirement_calculator inpC6 = some recsC6 := by
    norm_num [recsC6, inpC6, retirement_calculator, agesList, simYears, runAges, yearStep,
      resolvedEmi, stepCore, initState, applyOneTime, allocOf, annualReturnOf,
      get_equity_allocation, strategyPcts, dedAmt, List.range_succ]
  have hs1 : stateAt inpC6 1 = some ((stateAt inpC6 1).getD ⟨0, 0, 0⟩) := by
    norm_num [stateAt, iterStates, inpC6, agesList, simYears, yearStep, resolvedEmi,
      stepCore, initState, applyOneTime, allocOf, annualReturnOf, get_equity_allocation,
      strategyPcts, dedAmt, List.range_succ]
  have hs2 : stateAt inpC6 2 = some ((stateAt inpC6 2).getD ⟨0, 0, 0⟩) := by
    norm_num [stateAt, iterStates, inpC6, agesList, simYears, yearStep, resolvedEmi,
      stepCore, initState, applyOneTime, allocOf, annualReturnOf, get_equity_allocation,
      strategyPcts, dedAmt, List.range_succ]
  have hmain := c6_ongoing_retirement_expense inpC6 recsC6 h3 1 (by rw [recsC6_len]; norm_num)
  have hval : (recsC6.get ⟨1, by rw [recsC6_len]; norm_num⟩).expense = 200 / 1e7 := by
    norm_num [recsC6, inpC6, retirement_calculator, agesList, simYears, runAges, yearStep,
      resolvedEmi, stepCore, initState, applyOneTime, allocOf, annualReturnOf,
      get_equity_allocation, strategyPcts, dedAmt, List.range_succ]
  exact ⟨h3, hmain.1, hval, hs1, hs2,
    hmain.2 ((stateAt inpC6 1).getD ⟨0, 0, 0⟩) ((stateAt inpC6 2).getD ⟨0, 0, 0⟩) hs1 hs2⟩

/-- C7: the one-time component of every year's expense is the sum over all
configured entries matching the year's age of the entry amount inflated by
(1 + inflation)^(age - currentAge) — several entries at the same age are
all applied additively, never overwritten. -/
theorem c7_one_time_expenses_additive (inp : SimInput) (recs : List YearRecord)
    (h : retirement_calculator inp = some recs) :
    ∀ (k : ℕ) (hk : k < recs.length),
      (recs.get ⟨k, hk⟩).expense =
        ((if inp.retirement_age ≤ inp.current_age + (k : ℤ) then
            inp.annual_ret_expenses * (1 + inp.exp_inflation_rate) ^ k else 0)
          + (inp.one_time_expenses.map (fun q =>
              if inp.current_age + (k : ℤ) = q.1 then
                q.2 * (1 + inp.exp_inflation_rate) ^ k else 0)).sum
          + loanDeduction inp k) / 1e7 := by
  intro k hk
  rw [calc_expense_spec inp recs h k hk]
  have hone : oneTimeTotal inp (inp.current_age + (k : ℤ)) =
      (inp.one_time_expenses.map (fun q =>
        if inp.current_age + (k : ℤ) = q.1 then
          q.2 * (1 + inp.exp_inflation_rate) ^ k else 0)).sum := by
    have hexp : ((inp.current_age + (k : ℤ)) - inp.current_age).toNat = k := by omega
    simp only [oneTimeTotal, oneTimeSum, hexp]
  rw [hone]

/-- Length of the inpC7 record list. -/
theorem recsC7_len : recsC7.length = 3 := by
  norm_num [recsC7, inpC7, retirement_calculator, agesList, simYears, runAges, yearStep,
    resolvedEmi, stepCore, initState, applyOneTime, allocOf, annualReturnOf,
    get_equity_allocation, strategyPcts, dedAmt, List.range_succ, oneTimeSum, oneTimeTotal]

/-- Witness for C7 at the concrete input inpC7 (two one-time entries at
age 35, amounts 100000 and 1, zero inflation), instantiated in year
k = 1 (age 35): the expense is the sum 100001 over 1e7. -/
theorem c7_witness :
    retirement_calculator inpC7 = some recsC7
    ∧ (recsC7.get ⟨1, by rw [recsC7_len]; norm_num⟩).expense =
        ((if inpC7.retirement_age ≤ inpC7.current_age + ((1 : ℕ) : ℤ) then
            inpC7.annual_ret_expenses * (1 + inpC7.exp_inflation_rate) ^ (1 : ℕ) else 0)
          + (inpC7.one_time_expenses.map (fun q =>
              if inpC7.current_age + ((1 : ℕ) : ℤ) = q.1 then
                q.2 * (1 + inpC7.exp_inflation_rate) ^ (1 : ℕ) else 0)).sum
          + loanDeduction inpC7 1) / 1e7
    ∧ (recsC7.get ⟨1, by rw [recsC7_len]; norm_num⟩).expense = 100001 / 1e7 := by
  have h3 : retirement_calculator inpC7 = some recsC7 := by
    norm_num [recsC7, inpC7, retirement_calculator, agesList, simYears, runAges, yearStep,
      resolvedEmi, stepCore, initState, applyOneTime, allocOf, annualReturnOf,
      get_equity_allocation, strategyPcts, dedAmt, List.range_succ]
  have hval : (recsC7.get ⟨1, by rw [recsC7_len]; norm_num⟩).expense = 100001 / 1e7 := by
    norm_num [recsC7, inpC7, retirement_calculator, agesList, simYears, runAges, yearStep,
      resolvedEmi, stepCore, initState, applyOneTime, allocOf, annualReturnOf,
      get_equity_allocation, strategyPcts, dedAmt, List.range_succ]
  exact ⟨h3, c7_one_time_expenses_additive inpC7 recsC7 h3 1 (by rw [recsC7_len]; norm_num),
    hval⟩

/-- C8 counterexample: at the invalid input inpBad (currentAge 50 is past
retirementAge 40) the core does not reject anything — retirement_calculator
silently simulates and returns a full trajectory of 11 records for ages
50 through 60, refuting the claim that invalid ranges are rejected with a
validation failure before the year loop. -/
theorem c8_counterexample :
    inpBad.retirement_age ≤ inpBad.current_age
    ∧ retirement_calculator inpBad =
        some [⟨50, 0, 0, 0, 0, 0⟩, ⟨51, 0, 0, 0, 0, 0⟩, ⟨52, 0, 0, 0, 0, 0⟩,
              ⟨53, 0, 0, 0, 0, 0⟩, ⟨54, 0, 0, 0, 0, 0⟩, ⟨55, 0, 0, 0, 0, 0⟩,
              ⟨56, 0, 0, 0, 0, 0⟩, ⟨57, 0, 0, 0, 0, 0⟩, ⟨58, 0, 0, 0, 0, 0⟩,
              ⟨59, 0, 0, 0, 0, 0⟩, ⟨60, 0, 0, 0, 0, 0⟩] := by
  constructor
  · norm_num [inpBad]
  · norm_num [inpBad, retirement_calculator, agesList, simYears, runAges, yearStep,
      resolvedEmi, stepCore, initState, applyOneTime, allocOf, annualReturnOf,
      get_equity_allocation, strategyPcts, dedAmt, List.range_succ]

/-- C8 amended: the core performs no input-range validation at all — range
enforcement lives in the presentation layer's widgets. For any loan-free
input violating currentAge < retirementAge the core silently simulates:
it returns a full record list of length lifeExpectancy - currentAge + 1
in which every contribution is zero (every simulated age is already past
retirement). -/
theorem c8_amended_no_validation (inp : SimInput)
    (hloan : inp.home_loan = none)
    (hinv : inp.retirement_age ≤ inp.current_age) :
    retirement_calculator inp ≠ none
    ∧ ∀ (recs : List YearRecord), retirement_calculator inp = some recs →
        recs.length = (inp.life_expectancy - inp.current_age + 1).toNat
        ∧ ∀ (k : ℕ) (hk : k < recs.length), (recs.get ⟨k, hk⟩).contribution = 0 := by
  constructor
  · obtain ⟨recs, hr⟩ := runAges_isSome_of_none inp hloan (agesList inp) (initState inp)
    rw [retirement_calculator, hr]
    simp
  · intro recs h
    refine ⟨calc_length inp recs h, fun k hk => ?_⟩
    rw [calc_contribution_spec inp recs h k hk, if_neg (by omega)]
    norm_num

/-- Length of the inpBad record list. -/
theorem recsBad8_len : recsBad8.length = 11 := by
  norm_num [recsBad8, inpBad, retirement_calculator, agesList, simYears, runAges, yearStep,
    resolvedEmi, stepCore, initState, applyOneTime, allocOf, annualReturnOf,
    get_equity_allocation, strategyPcts, dedAmt, List.range_succ]

/-- Witness for the amended C8 at the concrete invalid input inpBad. -/
theorem c8_witness :
    inpBad.home_loan = none
    ∧ inpBad.retirement_age ≤ inpBad.current_age
    ∧ retirement_calculator inpBad ≠ none
    ∧ retirement_calculator inpBad = some recsBad8
    ∧ recsBad8.length = (inpBad.life_expectancy - inpBad.current_age + 1).toNat
    ∧ (recsBad8.get ⟨0, by rw [recsBad8_len]; norm_num⟩).contribution = 0 := by
  have heq : retirement_calculator inpBad = some recsBad8 := by
    norm_num [recsBad8, inpBad, retirement_calculator, agesList, simYears, runAges,
      yearStep, resolvedEmi, stepCore, initState, applyOneTime, allocOf, annualReturnOf,
      get_equity_allocation, strategyPcts, dedAmt, List.range_succ]
  have hmain := c8_amended_no_validation inpBad rfl (by norm_num [inpBad])
  have hrest := hmain.2 recsBad8 heq
  exact ⟨rfl, by norm_num [inpBad], hmain.1, heq, hrest.1,
    hrest.2 0 (by rw [recsBad8_len]; norm_num)⟩

/-- C9: the emitted Net Worth, Contribution, and Return fields are the
internal base-currency amounts divided by 1e7 (the netWorth field is the
post-flow balance scaled, not the raw balance), the Equity field is the
allocation fraction times 100, and the expense field scaled back up by 1e7
accounts exactly for the balance movement not explained by growth and
contribution. -/
theorem c9_scaled_emission (inp : SimInput) (recs : List YearRecord)
    (h : retirement_calculator inp = some recs) :
    ∀ (k : ℕ) (hk : k < recs.length) (st st' : LoopState),
      stateAt inp k = some st → stateAt inp (k + 1) = some st' →
      (recs.get ⟨k, hk⟩).netWorth = st'.balance / 1e7
      ∧ (recs.get ⟨k, hk⟩).contribution =
          (if inp.current_age + (k : ℤ) < inp.retirement_age then st.contrib else 0) / 1e7
      ∧ (recs.get ⟨k, hk⟩).investmentReturn =
          st.balance * annualReturnOf inp (inp.current_age + (k : ℤ)) / 1e7
      ∧ (recs.get ⟨k, hk⟩).equityPct = allocOf inp (inp.current_age + (k : ℤ)) * 100
      ∧ (recs.get ⟨k, hk⟩).expense * 1e7 =
          st.balance * (1 + annualReturnOf inp (inp.current_age + (k : ℤ)))
            + (if inp.current_age + (k : ℤ) < inp.retirement_age then st.contrib else 0)
            - st'.balance := by
  intro k hk st st' hst hst'
  obtain ⟨a1, a2, a3, a4, a5, a6⟩ := calc_fields_spec inp recs h k hk st st' hst hst'
  exact ⟨a1, a2, a3, a4, a5⟩

/-- Length of the inpC9 record list. -/
theorem recsC9_len : recsC9.length = 3 := by
  norm_num [recsC9, inpC9, retirement_calculator, agesList, simYears, runAges, yearStep,
    resolvedEmi, stepCore, initState, applyOneTime, allocOf, annualReturnOf,
    get_equity_allocation, strategyPcts, dedAmt, List.range_succ]

/-- Witness for C9 at the concrete input inpC9 (savings 1000, 50% equity
at full equity return 1): year k = 0 grows the balance to 1500, so the
emitted netWorth is 1500 / 1e7. -/
theorem c9_witness :
    retirement_calculator inpC9 = some recsC9
    ∧ stateAt inpC9 0 = some (initState inpC9)
    ∧ stateAt inpC9 1 = some ((stateAt inpC9 1).getD ⟨0, 0, 0⟩)
    ∧ (recsC9.get ⟨0, by rw [recsC9_len]; norm_num⟩).netWorth =
        ((stateAt inpC9 1).getD ⟨0, 0, 0⟩).balance / 1e7
    ∧ (recsC9.get ⟨0, by rw [recsC9_len]; norm_num⟩).investmentReturn =
        (initState inpC9).balance * annualReturnOf inpC9 (inpC9.current_age + ((0 : ℕ) : ℤ)) / 1e7
    ∧ (recsC9.get ⟨0, by rw [recsC9_len]; norm_num⟩).equityPct =
        allocOf inpC9 (inpC9.current_age + ((0 : ℕ) : ℤ)) * 100
    ∧ (recsC9.get ⟨0, by rw [recsC9_len]; norm_num⟩).netWorth = 1500 / 1e7 := by
  have h3 : retirement_calculator inpC9 = some recsC9 := by
    norm_num [recsC9, inpC9, retirement_calculator, agesList, simYears, runAges, yearStep,
      resolvedEmi, stepCore, initState, applyOneTime, allocOf, annualReturnOf,
      get_equity_allocation, strategyPcts, dedAmt, List.range_succ]
  have hs1 : stateAt inpC9 1 = some ((stateAt inpC9 1).getD ⟨0, 0, 0⟩) := by
    norm_num [stateAt, iterStates, inpC9, agesList, simYears, yearStep, resolvedEmi,
      stepCore, initState, applyOneTime, allocOf, annualReturnOf, get_equity_allocation,
      strategyPcts, dedAmt, List.range_succ]
  have hval : (recsC9.get ⟨0, by rw [recsC9_len]; norm_num⟩).netWorth = 1500 / 1e7 := by
    norm_num [recsC9, inpC9, retirement_calculator, agesList, simYears, runAges, yearStep,
      resolvedEmi, stepCore, initState, applyOneTime, allocOf, annualReturnOf,
      get_equity_allocation, strategyPcts, dedAmt, List.range_succ]
  have hmain := c9_scaled_emission inpC9 recsC9 h3 0 (by rw [recsC9_len]; norm_num)
    (initState inpC9) ((stateAt inpC9 1).getD ⟨0, 0, 0⟩) rfl hs1
  exact ⟨h3, rfl, hs1, hmain.1, hmain.2.2.1, hmain.2.2.2.1, hval⟩

/-- C10: a home loan whose start age is never simulated (below currentAge
or above lifeExpectancy), or whose computed EMI is not strictly positive,
changes nothing: the whole output equals that of the same input with no
home loan configured. -/
theorem c10_irrelevant_loan (inp : SimInput) (s : ℤ) (P : ℚ) (t : ℕ) (r : ℚ)
    (hl : inp.home_loan = some (s, P, t, r))
    (hcase : (s < inp.current_age ∨ inp.life_expectancy < s)
      ∨ ∃ e, calculate_annual_emi
          (P * (1 + inp.exp_inflation_rate) ^ ((s - inp.current_age).toNat)) r t =
            some e ∧ e ≤ 0) :
    retirement_calculator inp = retirement_calculator (clearLoan inp) := by
  unfold retirement_calculator
  have hages : agesList (clearLoan inp) = agesList inp := rfl
  rw [hages]
  apply runAges_clearLoan inp s P t r hl (agesList inp) (initState inp)
    (initState (clearLoan inp)) rfl rfl (by norm_num [initState])
  rcases hcase with hout | hsome
  · exact Or.inl (not_mem_agesList inp s hout)
  · exact Or.inr hsome

/-- Witness for C10 at the concrete input inpC10, whose loan starts at
age 20, below the simulated range 30-32 (and whose rate 0 would crash the
EMI formula if it were ever computed — it is not). -/
theorem c10_witness :
    inpC10.home_loan = some (20, 5, 3, 0)
    ∧ ((20 : ℤ) < inpC10.current_age ∨ inpC10.life_expectancy < 20)
    ∧ retirement_calculator inpC10 ≠ none
    ∧ retirement_calculator inpC10 = retirement_calculator (clearLoan inpC10) := by
  have hsome : retirement_calculator inpC10 ≠ none := by
    have hev : retirement_calculator inpC10 =
        some ((retirement_calculator inpC10).getD []) := by
      norm_num [inpC10, retirement_calculator, agesList, simYears, runAges, yearStep,
        resolvedEmi, stepCore, initState, applyOneTime, allocOf, annualReturnOf,
        get_equity_allocation, strategyPcts, dedAmt, List.range_succ]
    rw [hev]
    simp
  exact ⟨rfl, Or.inl (by norm_num [inpC10]), hsome,
    c10_irrelevant_loan inpC10 20 5 3 0 rfl (Or.inl (by norm_num [inpC10]))⟩
